import Mathlib

/- Shallow embedding of the Step/Task orchestration engine of the
repository (package AAA: helper_functions.py, Execute_Script.py,
Run_Job.py, task_class.py).

Modelling conventions:
* Python strings are Lean `String`s.
* The working directory is an explicit association list `Fs` from file
  names to file contents; `os.path` queries and mutations act on it.
  The `sub_folder` handling of the source (`os.path.join` plus
  `os.chdir` dances) only relocates the same names inside a single
  directory per task, so file names are used verbatim as keys.
* External processes (the ANSYS executable, the LSF scheduler, `chmod`)
  are recorded as `ExecEvent`s; the scheduler's captured stdout is an
  oracle input threaded through the callers.
* Python exceptions are values of `PyError`; a function that can raise
  returns `Except PyError _`, or pairs the events already performed
  with the outcome when side effects precede the raise.
* An `Fs` entry stands for both a file and a directory:
  `os.path.isfile` / `os.path.isdir` both test presence of the entry,
  and `os.remove` / `shutil.rmtree` both delete it, so the pair of
  existence-checked removals in `clean_project_files` collapses to one
  existence-checked removal per name. -/

/-- Python exceptions that can escape the modelled functions. -/
inductive PyError where
  | exc (msg : String)
  | typeError
  | indexError
  deriving DecidableEq, Repr

/-! ## Strings and word lists (helper_functions.py) -/

/-- Character-level loop of `string_to_word_list`: the running word
`temp` is flushed only when a space is met, so the trailing word of the
string (not followed by a space) is dropped. -/
def wordsAux : List Char → List Char → List (List Char)
  | [], _ => []
  | c :: rest, temp =>
    if c = ' ' then temp :: wordsAux rest []
    else wordsAux rest (temp ++ [c])

/-- helper_functions.string_to_word_list. -/
def string_to_word_list (s : String) : List String :=
  (wordsAux s.toList []).map (fun w => String.mk w)

/-- Digits kept from the token following the marker word, as in the
inner loop of `find_job_id_from_exec_output` over `word_list[index+1]`. -/
def digitsOnly (w : String) : String :=
  String.mk (w.toList.filter (fun c => c.isDigit))

/-- Loop of `find_job_id_from_exec_output`: every occurrence of the
word `Job` overwrites `val` with the digits of the following word;
`word_list[index + 1]` raises `IndexError` when `Job` is the last word. -/
def findJobIdAux : List String → String → Except Unit String
  | [], val => .ok val
  | [w], val => if w = "Job" then .error () else .ok val
  | w :: next :: rest, val =>
    if w = "Job" then findJobIdAux (next :: rest) (digitsOnly next)
    else findJobIdAux (next :: rest) val

/-- helper_functions.find_job_id_from_exec_output; `.error ()` is the
escaping `IndexError`. -/
def find_job_id_from_exec_output (output_string : String) : Except Unit String :=
  findJobIdAux (string_to_word_list output_string) ("no job id in: " ++ output_string)

/-- Python `file.readlines` on in-memory contents: split after every
newline, the newline staying inside its line; a final line without a
newline is kept as well. -/
def readlinesAux : List Char → List Char → List (List Char)
  | [], acc => if acc.isEmpty then [] else [acc]
  | c :: rest, acc =>
    if c = '\n' then (acc ++ ['\n']) :: readlinesAux rest []
    else readlinesAux rest (acc ++ [c])

def readlines (content : String) : List String :=
  (readlinesAux content.toList []).map (fun l => String.mk l)

/-- Python's `needle in haystack` substring test. -/
def isPrefixCL : List Char → List Char → Bool
  | [], _ => true
  | _ :: _, [] => false
  | a :: as, b :: bs => a = b && isPrefixCL as bs

def containsSubCL (needle : List Char) : List Char → Bool
  | [] => needle.isEmpty
  | c :: rest => isPrefixCL needle (c :: rest) || containsSubCL needle rest

/-! ## The working directory -/

/-- The working directory: an association list file name ↦ contents. -/
abbrev Fs := List (String × String)

def os_path_exists (fs : Fs) (name : String) : Bool :=
  fs.any (fun p => p.1 == name)

def os_read (fs : Fs) (name : String) : Option String :=
  (fs.find? (fun p => p.1 == name)).map (fun p => p.2)

def os_remove (fs : Fs) (name : String) : Fs :=
  fs.filter (fun p => p.1 != name)

def os_write (fs : Fs) (name content : String) : Fs :=
  (name, content) :: os_remove fs name

/-- `os.rename`; its uses in the source are guarded by an existence
check, so the missing-source case never occurs there. -/
def os_rename (fs : Fs) (src dst : String) : Fs :=
  match os_read fs src with
  | none => fs
  | some c => os_write (os_remove fs src) dst c

/-! ## Completion detection and recovery (helper_functions.py) -/

def error_syndrome : String := "may be opened in another instance of the application."

/-- Line scan of `find_lock_error_syndrome` over the log contents. -/
def lockSyndromeIn (content : String) : Bool :=
  (readlines content).any (fun line => containsSubCL error_syndrome.toList line.toList)

/-- helper_functions.find_lock_error_syndrome; `open` on a missing file
raises. -/
def find_lock_error_syndrome (fs : Fs) (job_name : String) : Except PyError Bool :=
  match os_read fs job_name with
  | none => .error (.exc "FileNotFoundError")
  | some content => .ok (lockSyndromeIn content)

/-- Per-line trigger of `detect_errors_from_log_file`: a word equal to
`[error]` always triggers reporting, `[warning]` only when
`display_warnings` is set. -/
def report_line (display_warnings : Bool) (line : String) : Bool :=
  (string_to_word_list line).any
    (fun w => w == "[error]" || (w == "[warning]" && display_warnings))

/-- Reporting loop of `detect_errors_from_log_file`: a triggering line
is forwarded together with up to three following lines (the
`IndexError` past the end of the file is swallowed). -/
def detectAux (display_warnings : Bool) : List String → List String
  | [] => []
  | l :: rest =>
    (if report_line display_warnings l then l :: rest.take 3 else [])
      ++ detectAux display_warnings rest

/-- helper_functions.detect_errors_from_log_file, returning the lines
written to the status sink. -/
def detect_errors_from_log_file (fs : Fs) (log_file_name : String)
    (display_warnings : Bool) : Except PyError (List String) :=
  match os_read fs log_file_name with
  | none => .error (.exc "FileNotFoundError")
  | some content =>
    .ok (("Checking for errors and warnings in: " ++ log_file_name)
          :: detectAux display_warnings (readlines content))

/-- The fixed set of per-project companion files checked by
`clean_project_files`, in source order. -/
def projectFilesToCheck (project_name : String)
    (clean_aedt_file clean_aedtresults : Bool) : List String :=
  [project_name ++ ".aedt.q.completed",
   project_name ++ ".aedt.batchinfo",
   project_name ++ ".aedt.lock",
   project_name ++ ".aedt.temp",
   project_name ++ ".aedt.auto"]
  ++ (if clean_aedt_file then [project_name ++ ".aedt"] else [])
  ++ (if clean_aedtresults then [project_name ++ ".aedtresults"] else [])

/-- helper_functions.clean_project_files: each name is removed only if
present; the status messages are returned alongside the new directory
state. -/
def clean_project_files (project_name : String)
    (clean_aedt_file clean_aedtresults : Bool) (fs : Fs) : Fs × List String :=
  (projectFilesToCheck project_name clean_aedt_file clean_aedtresults).foldl
    (fun acc n =>
      if os_path_exists acc.1 n then (os_remove acc.1 n, acc.2 ++ ["Removed " ++ n])
      else acc)
    (fs, [])

/-! ## Lemmas about word splitting (for C8 and C10) -/

theorem wordsAux_no_space_nil (suffix : List Char) (temp : List Char)
    (h : ' ' ∉ suffix) : wordsAux suffix temp = [] := by
  induction suffix generalizing temp with
  | nil => rfl
  | cons c cs ih =>
    have hc : c ≠ ' ' := fun e => h (e ▸ List.mem_cons_self c cs)
    simp only [wordsAux, if_neg hc]
    exact ih _ (fun m => h (List.mem_cons_of_mem _ m))

theorem wordsAux_append_no_space (cs suffix : List Char) (temp : List Char)
    (h : ' ' ∉ suffix) :
    wordsAux (cs ++ suffix) temp = wordsAux cs temp := by
  induction cs generalizing temp with
  | nil => simpa using wordsAux_no_space_nil suffix temp h
  | cons c cs' ih =>
    by_cases hc : c = ' '
    · simp only [List.cons_append, wordsAux, if_pos hc]
      exact congrArg _ (ih [])
    · simp only [List.cons_append, wordsAux, if_neg hc]
      exact ih _

theorem string_to_word_list_append_no_space (p q : String)
    (h : ' ' ∉ q.toList) :
    string_to_word_list (p ++ q) = string_to_word_list p := by
  unfold string_to_word_list
  rw [show (p ++ q).toList = p.toList ++ q.toList from rfl,
      wordsAux_append_no_space _ _ _ h]

/-! ## Lemmas about the job id parser (for C8) -/

theorem findJobIdAux_no_job (l : List String) (v : String) (h : "Job" ∉ l) :
    findJobIdAux l v = .ok v := by
  induction l generalizing v with
  | nil => rfl
  | cons w rest ih =>
    have hw : w ≠ "Job" := fun e => h (e ▸ List.mem_cons_self w rest)
    have hrest : "Job" ∉ rest := fun m => h (List.mem_cons_of_mem _ m)
    cases rest with
    | nil => simp [findJobIdAux, hw]
    | cons x xs =>
      simp only [findJobIdAux, if_neg hw]
      exact ih _ hrest

theorem findJobIdAux_last_job (pre : List String) (v : String) :
    findJobIdAux (pre ++ ["Job"]) v = .error () := by
  induction pre generalizing v with
  | nil => simp [findJobIdAux]
  | cons p ps ih =>
    cases hps : ps ++ ["Job"] with
    | nil => simp at hps
    | cons x xs =>
      simp only [List.cons_append, hps, findJobIdAux]
      by_cases hp : p = "Job"
      · rw [if_pos hp, ← hps]; exact ih _
      · rw [if_neg hp, ← hps]; exact ih _

/-- When the list decomposes at the LAST occurrence of the marker word
(no further `Job` among the remaining words), the loop ends with the
digits of the word following that occurrence -- whatever `val` held
before, and however many earlier `Job` occurrences `pre` contains. -/
theorem findJobIdAux_last_occurrence (pre : List String) (w : String)
    (rest : List String) (v : String) (hrest : "Job" ∉ w :: rest) :
    findJobIdAux (pre ++ "Job" :: w :: rest) v = .ok (digitsOnly w) := by
  induction pre generalizing v with
  | nil =>
    show findJobIdAux ("Job" :: w :: rest) v = .ok (digitsOnly w)
    simp only [findJobIdAux, if_pos rfl]
    exact findJobIdAux_no_job _ _ hrest
  | cons p ps ih =>
    cases hq : ps ++ "Job" :: w :: rest with
    | nil => simp at hq
    | cons x xs =>
      simp only [List.cons_append, hq, findJobIdAux]
      by_cases hp : p = "Job"
      · rw [if_pos hp, ← hq]; exact ih _
      · rw [if_neg hp, ← hq]; exact ih _

/-! ## Claim C8: the job id parser -/

/-- C8 counterexample: two outputs in which no job identifier can be
found, yet the parser does not return the diagnostic string embedding
the raw output: on "Job " (no token follows the marker word) it
raises an `IndexError`, and on "Job abc " (the following token has no
digits) it returns the empty string. -/
theorem find_job_id_missing_id_not_diagnostic :
    find_job_id_from_exec_output "Job " = .error ()
    ∧ find_job_id_from_exec_output "Job abc " = .ok "" :=
  ⟨rfl, rfl⟩

/-- C8 (amended): the parser scans the space-delimited words for the
literal marker `Job` and extracts the digits of the token following
its last occurrence (earlier occurrences are overwritten); when `Job`
does not occur among the words it returns the diagnostic string
embedding the raw output; but when `Job` is the last word the lookup
of the following token raises an `IndexError`, and a following token
without digits yields the empty string rather than the diagnostic. -/
theorem find_job_id_characterization (output_string : String) :
    ("Job" ∉ string_to_word_list output_string →
       find_job_id_from_exec_output output_string
         = .ok ("no job id in: " ++ output_string))
    ∧ (∀ pre w rest,
         string_to_word_list output_string = pre ++ "Job" :: w :: rest →
         "Job" ∉ w :: rest →
         find_job_id_from_exec_output output_string = .ok (digitsOnly w))
    ∧ (∀ pre, string_to_word_list output_string = pre ++ ["Job"] →
         find_job_id_from_exec_output output_string = .error ()) := by
  refine ⟨fun h => ?_, fun pre w rest heq hrest => ?_, fun pre heq => ?_⟩
  · exact findJobIdAux_no_job _ _ h
  · unfold find_job_id_from_exec_output
    rw [heq]
    exact findJobIdAux_last_occurrence pre w rest _ hrest
  · unfold find_job_id_from_exec_output
    rw [heq]
    exact findJobIdAux_last_job _ _

/-- C8 witness: with two marker occurrences, the digits of the token
following the last `Job` win (the source returns "1" here). -/
theorem find_job_id_characterization_witness :
    find_job_id_from_exec_output "Job a Job 1 x " = .ok (digitsOnly "1") :=
  (find_job_id_characterization "Job a Job 1 x ").2.1
    ["Job", "a"] "1" ["x"] (by decide) (by decide)

/-! ## Claim C9: idempotence of clean_project_files -/

theorem clean_foldl_fst (names : List String) (fs : Fs) (msgs : List String) :
    (names.foldl
      (fun acc n =>
        if os_path_exists acc.1 n then (os_remove acc.1 n, acc.2 ++ ["Removed " ++ n])
        else acc)
      (fs, msgs)).1
    = names.foldl (fun g n => if os_path_exists g n then os_remove g n else g) fs := by
  induction names generalizing fs msgs with
  | nil => rfl
  | cons n ns ih =>
    simp only [List.foldl_cons]
    by_cases h : os_path_exists fs n = true <;> simp only [h, if_true, if_false,
      Bool.false_eq_true, ite_true, ite_false] <;> exact ih _ _

theorem removeIf_eq_filter (fs : Fs) (n : String) :
    (if os_path_exists fs n then os_remove fs n else fs)
      = fs.filter (fun p => p.1 != n) := by
  by_cases h : os_path_exists fs n = true
  · rw [if_pos h]; rfl
  · rw [if_neg h]
    refine (List.filter_eq_self.mpr fun p hp => ?_).symm
    have h' : ¬((p.1 == n) = true) := fun hbeq =>
      h (List.any_eq_true.mpr ⟨p, hp, hbeq⟩)
    simpa [bne] using h'

theorem foldl_removeIf_eq_filter (names : List String) (fs : Fs) :
    names.foldl (fun g n => if os_path_exists g n then os_remove g n else g) fs
      = fs.filter (fun p => names.all (fun n => p.1 != n)) := by
  induction names generalizing fs with
  | nil => simp
  | cons n ns ih =>
    simp only [List.foldl_cons]
    rw [removeIf_eq_filter, ih, List.filter_filter]
    simp only [List.all_cons, Bool.and_comm]

/-- C9: invoking the stale-artifact cleanup twice with the same
arguments yields the same working-directory state as invoking it once:
each removal is existence-checked and is a no-op once the file is
gone. -/
theorem clean_project_files_idempotent (project_name : String)
    (clean_aedt_file clean_aedtresults : Bool) (fs : Fs) :
    (clean_project_files project_name clean_aedt_file clean_aedtresults
        (clean_project_files project_name clean_aedt_file clean_aedtresults fs).1).1
      = (clean_project_files project_name clean_aedt_file clean_aedtresults fs).1 := by
  unfold clean_project_files
  rw [clean_foldl_fst, clean_foldl_fst, foldl_removeIf_eq_filter,
      foldl_removeIf_eq_filter, List.filter_filter]
  simp

/-! ## Claim C10: the trailing marker token of a line is dropped -/

theorem readlinesAux_single (cs : List Char) (acc : List Char)
    (h : '\n' ∉ cs) :
    readlinesAux (cs ++ ['\n']) acc = [acc ++ cs ++ ['\n']] := by
  induction cs generalizing acc with
  | nil => simp [readlinesAux]
  | cons c cs' ih =>
    have hc : c ≠ '\n' := fun e => h (e ▸ List.mem_cons_self c cs')
    simp only [List.cons_append, readlinesAux, if_neg hc]
    show readlinesAux (cs' ++ ['\n']) (acc ++ [c]) = _
    rw [ih _ (fun m => h (List.mem_cons_of_mem _ m))]
    simp

/-- C10: on every log line whose `[error]` (or `[warning]`) marker is
the final token, followed by the line's newline rather than by a
space, the error scan reports nothing: `string_to_word_list` flushes a
word only at a space, so the trailing token is dropped before
matching. -/
theorem trailing_marker_not_reported (display_warnings : Bool) (p : String)
    (hwords : ∀ w ∈ string_to_word_list p, w ≠ "[error]" ∧ w ≠ "[warning]")
    (hnl : '\n' ∉ p.toList) :
    report_line display_warnings (p ++ "[error]\n") = false
    ∧ report_line display_warnings (p ++ "[warning]\n") = false
    ∧ detectAux display_warnings (readlines (p ++ "[error]\n")) = [] := by
  have hp : ∀ dw, report_line dw p = false := by
    intro dw
    unfold report_line
    rw [List.any_eq_false]
    intro w hw
    rcases hwords w hw with ⟨he, hwa⟩
    simp [he, hwa]
  have h1 : report_line display_warnings (p ++ "[error]\n") = false := by
    unfold report_line
    rw [string_to_word_list_append_no_space _ _ (by decide)]
    exact hp display_warnings
  have h2 : report_line display_warnings (p ++ "[warning]\n") = false := by
    unfold report_line
    rw [string_to_word_list_append_no_space _ _ (by decide)]
    exact hp display_warnings
  refine ⟨h1, h2, ?_⟩
  have hlist : (p ++ "[error]\n").toList
      = (p.toList ++ "[error]".toList) ++ ['\n'] := by
    show p.toList ++ "[error]\n".toList = _
    rw [show ("[error]\n").toList = "[error]".toList ++ ['\n'] from rfl,
        List.append_assoc]
  have hmem : '\n' ∉ p.toList ++ "[error]".toList := by
    intro m
    rcases List.mem_append.mp m with m | m
    · exact hnl m
    · exact absurd m (by decide)
  unfold readlines
  rw [hlist, readlinesAux_single _ _ hmem]
  simp only [List.map_cons, List.map_nil, List.nil_append, detectAux]
  have hstr : String.mk (p.toList ++ "[error]".toList ++ ['\n'])
      = p ++ "[error]\n" := by
    show String.mk (p.toList ++ "[error]".toList ++ ['\n'])
        = String.mk (p.toList ++ "[error]\n".toList)
    rw [List.append_assoc]
    rfl
  rw [hstr, h1]
  simp

/-! ## The job dispatcher (Run_Job.py, Execute_Script.py) -/

/-- specific_types.SimulationResources. `RAM` and `scratch` are
optional: the dispatcher tests them against `None`. -/
structure SimulationResources where
  cores : Nat
  time : String
  RAM : Option Nat
  scratch : Option Nat
  deriving DecidableEq, Repr

/-- Externally visible actions of the dispatcher: writing a file,
invoking a process synchronously (`subprocess.call` / `os.system`),
and spawning a process whose stdout is captured (`Popen` + `read`). -/
inductive ExecEvent where
  | writeFile (name content : String)
  | callProcess (cmd : String)
  | spawnCapture (cmd : String)
  deriving DecidableEq, Repr

def ExecEvent.isCall : ExecEvent → Bool
  | .callProcess _ => true
  | _ => false

def ExecEvent.isWrite : ExecEvent → Bool
  | .writeFile _ _ => true
  | _ => false

/-- The resource-flag portion of the submission command written by
`run_euler_job`. -/
def bsubResourceFlags (res : SimulationResources) : String :=
  "bsub" ++ " "
  ++ "-n " ++ toString res.cores ++ " "
  ++ "-W " ++ res.time ++ " "
  ++ (match res.RAM with
      | some ram => "-R \"rusage[mem=" ++ toString ram ++ "]\"" ++ " "
      | none => "")
  ++ (match res.scratch with
      | some sc => "-R \"rusage[scratch=" ++ toString sc ++ "]\"" ++ " "
      | none => "")

/-- Contents of the auxiliary multi-core configuration file (written to
the oddly named file "batch.cfg " with a trailing space, as in the
source). -/
def batchCfgContent : String :=
  "$begin 'Config'\n"
  ++ "'HFSS/NumCoresPerDistributedTask'=1\n"
  ++ "'HFSS/HPCLicenseType'='pool'\n"
  ++ "$end 'Config'\n"

/-- Run_Job.run_euler_job.  Parameters follow the source signature;
`schedOut` is the stdout captured from the submission script.  The
returned event list are the side effects performed up to the return or
up to the escaping exception: the conflict check precedes any file
write; a missing `resources_requested` raises after the bash file was
opened and the module line written; the auxiliary "batch.cfg " file is
written while the submission command is being assembled. -/
def run_euler_job (aedt_file_name : String)
    (resources_requested : Option SimulationResources)
    (name_bash_file script_name design_name setup_to_analyse
      job_log_name sub_folder : Option String)
    (schedOut : String) : List ExecEvent × Except PyError String :=
  let bashName := name_bash_file.getD "temporary_bash_file.sh"
  let logName := job_log_name.getD "job.log"
  if script_name.isSome && (setup_to_analyse.isSome || design_name.isSome) then
    ([], .error (.exc "Cannot run a script and analyse a setup simultaneously"))
  else
    match resources_requested with
    | none => ([ExecEvent.writeFile bashName "module load ansys_em/19.5\n"],
               .error .typeError)
    | some res =>
      let flags := bsubResourceFlags res
      let cmdPart : String × List ExecEvent :=
        match script_name with
        | some sc =>
          ("ansysedt -features=beta" ++ " " ++ "-ng -runscriptandexit" ++ " "
            ++ sc ++ " " ++ aedt_file_name ++ "\n", [])
        | none =>
          match setup_to_analyse, design_name with
          | some setup, some dn =>
            let multicore : String × List ExecEvent :=
              if res.cores > 1 then
                ("-batchoptions batch.cfg" ++ " "
                  ++ "-machinelist numcores=" ++ toString res.cores ++ " "
                  ++ "-auto NumDistributedVariations=" ++ toString res.cores ++ " ",
                 [ExecEvent.writeFile "batch.cfg " batchCfgContent])
              else ("", [])
            ("'ansysedt -monitor -distributed -ng" ++ " "
              ++ "-logfile " ++ logName ++ " "
              ++ multicore.1
              ++ "-batchsolve \"" ++ dn ++ ":" ++ setup ++ "\"" ++ " "
              ++ aedt_file_name ++ "'\n",
             multicore.2)
          | _, _ => ("", [])
      let events :=
        [ExecEvent.writeFile bashName ("module load ansys_em/19.5\n" ++ flags ++ cmdPart.1)]
        ++ cmdPart.2
        ++ [ExecEvent.callProcess ("chmod 755 " ++ bashName),
            ExecEvent.spawnCapture ("./" ++ bashName)]
      match find_job_id_from_exec_output schedOut with
      | .ok jid => (events, .ok jid)
      | .error _ => (events, .error .indexError)

/-- Execute_Script.local_script_execution: one synchronous invocation
of the external application; string concatenation with a `None`
executable address raises `TypeError` before any call. -/
def local_script_execution (script_name aedt_file_name : String)
    (ansys_exec_address : Option String) (sub_folder : Option String) :
    List ExecEvent × Except PyError Unit :=
  match ansys_exec_address with
  | none => ([], .error .typeError)
  | some addr =>
    ([ExecEvent.callProcess
        ("cmd /c" ++ " " ++ addr ++ " "
          ++ "-features=beta -ng -runscriptandexit" ++ " "
          ++ script_name ++ " " ++ aedt_file_name)],
     .ok ())

/-- Execute_Script.execute_script. -/
def execute_script (script_name aedt_file_name : String) (exec_option : String)
    (ansys_exec_address : Option String)
    (resources_requested : Option SimulationResources)
    (name_bash_file job_log_name sub_folder : Option String)
    (schedOut : String) : List ExecEvent × Except PyError String :=
  if exec_option = "local" then
    match local_script_execution script_name aedt_file_name ansys_exec_address sub_folder with
    | (events, .ok _) => (events, .ok "0")
    | (events, .error e) => (events, .error e)
  else if exec_option = "euler" then
    run_euler_job aedt_file_name resources_requested name_bash_file
      (some script_name) none none job_log_name sub_folder schedOut
  else ([], .error (.exc ("execution option: " ++ exec_option ++ " not handled")))

/-- Run_Job.run_local_job: one synchronous invocation; concatenating a
`None` address, design or setup into the command raises `TypeError`. -/
def run_local_job (ansys_exec_address design_name setup_to_analyse : Option String)
    (aedt_file_name : String) (job_log_name sub_folder : Option String) :
    List ExecEvent × Except PyError Unit :=
  let logName := job_log_name.getD "job.log"
  match ansys_exec_address, design_name, setup_to_analyse with
  | some addr, some dn, some setup =>
    ([ExecEvent.callProcess
        ("cmd /c" ++ " " ++ addr ++ " "
          ++ ("-features=beta -ng " ++ "-monitor -logfile " ++ logName ++ " -batchsolve ")
          ++ " " ++ dn ++ ":" ++ setup ++ " " ++ aedt_file_name)],
     .ok ())
  | _, _, _ => ([], .error .typeError)

/-- Run_Job.run_job.  The `local` branch calls `run_local_job` and
falls through, returning Python's `None`; the `euler` branch returns
the job id; any other execution option silently returns `None` as
well -- no exception is raised on this path. -/
def run_job (setup_to_analyse : Option String) (aedt_file_name : String)
    (exec_option : String) (design_name : Option String)
    (ansys_exec_address : Option String) (job_log_name : Option String)
    (resources_requested : Option SimulationResources)
    (bash_file_name : Option String) (sub_folder : Option String)
    (schedOut : String) : List ExecEvent × Except PyError (Option String) :=
  if exec_option = "local" then
    let r := run_local_job ansys_exec_address design_name setup_to_analyse
      aedt_file_name job_log_name sub_folder
    (r.1, r.2.map (fun _ => none))
  else if exec_option = "euler" then
    let r := run_euler_job aedt_file_name resources_requested bash_file_name
      none design_name setup_to_analyse job_log_name sub_folder schedOut
    (r.1, r.2.map (fun jid => some jid))
  else ([], .ok none)

/-! ## Step construction (task_class.Step) -/

inductive StepType where
  | Script
  | Analysis
  | Python
  deriving DecidableEq, Repr

/-- task_class.Step: the constructor-assigned fields.  The in-process
callback `func` / `arg_list` is not carried as data; its behaviour
enters `executeStep` through the oracle `PollEnv.pyRaises`. -/
structure Step where
  name : String
  displayName : String
  stepType : StepType
  bashFileName : Option String := none
  resourcesRequested : Option SimulationResources := none
  moveToLogFile : Bool := false
  scriptName : Option String := none
  subFolder : Option String := none
  logFileName : Option String := none
  designName : Option String := none
  setupToAnalyse : Option String := none
  done : Bool := false
  inProgress : Bool := false
  jobId : Option String := none
  deriving DecidableEq, Repr

/-- Step.__init__: an unknown step kind raises before the Step exists;
`done` and `in_progress` start false and `job_id` starts `None`. -/
def mkStep (name display_name step_type : String)
    (bash_file_name : Option String)
    (resources_requested : Option SimulationResources)
    (move_to_log_file_dir : Bool)
    (script_name sub_folder log_file_name design_name setup_to_analyse :
      Option String) : Except PyError Step :=
  let kind : Option StepType :=
    if step_type = "Script" then some .Script
    else if step_type = "Analysis" then some .Analysis
    else if step_type = "Python" then some .Python
    else none
  match kind with
  | none => .error (.exc ("Step type: " ++ step_type ++ " not handled"))
  | some k =>
    .ok { name := name
          displayName := display_name
          stepType := k
          bashFileName := bash_file_name
          resourcesRequested := resources_requested
          moveToLogFile := move_to_log_file_dir
          scriptName := script_name
          subFolder := sub_folder
          logFileName := log_file_name
          designName := design_name
          setupToAnalyse := setup_to_analyse }

/-! ## Claim C4: fatal configuration errors -/

/-- C4 counterexample: `run_job` with an unknown execution backend
raises no exception at all -- it performs nothing and silently returns
Python's `None`. -/
theorem run_job_unknown_backend_silent :
    run_job none "a.aedt" "sge" none none none none none none ""
      = ([], .ok none) := rfl

/-- C4 (amended): a conflicting dispatch payload (script together with
a design or setup) makes `run_euler_job` raise before any file is
written or process spawned (no events), and an unknown step kind makes
`Step.__init__` raise; an unknown execution backend makes
`execute_script` raise immediately, but `run_job` falls through its
backend dispatch silently, returning no job id instead of raising. -/
theorem fatal_configuration_checks (aedt sc opt st nm dnm : String)
    (resources : Option SimulationResources) (mv : Bool)
    (bash design setup log sub addr scn : Option String) (schedOut : String) :
    ((setup.isSome || design.isSome) = true →
      run_euler_job aedt resources bash (some sc) design setup log sub schedOut
        = ([], .error (.exc "Cannot run a script and analyse a setup simultaneously")))
    ∧ (opt ≠ "local" → opt ≠ "euler" →
        execute_script sc aedt opt addr resources bash log sub schedOut
          = ([], .error (.exc ("execution option: " ++ opt ++ " not handled"))))
    ∧ (st ≠ "Script" → st ≠ "Analysis" → st ≠ "Python" →
        mkStep nm dnm st bash resources mv scn sub log design setup
          = .error (.exc ("Step type: " ++ st ++ " not handled")))
    ∧ (opt ≠ "local" → opt ≠ "euler" →
        run_job setup aedt opt design addr log resources bash sub schedOut
          = ([], .ok none)) := by
  refine ⟨fun h => ?_, fun h1 h2 => ?_, fun h1 h2 h3 => ?_, fun h1 h2 => ?_⟩
  · simp [run_euler_job, h]
  · simp [execute_script, h1, h2]
  · simp [mkStep, h1, h2, h3]
  · simp [run_job, h1, h2]

/-- C4 witness: concrete instances of each fatal-configuration check. -/
theorem fatal_configuration_checks_witness :
    (run_euler_job "a.aedt" none none (some "s.vbs") (some "d") none none none ""
      = ([], .error (.exc "Cannot run a script and analyse a setup simultaneously")))
    ∧ (execute_script "s.vbs" "a.aedt" "slurm" none none none none none ""
      = ([], .error (.exc ("execution option: " ++ "slurm" ++ " not handled"))))
    ∧ (mkStep "n" "N" "Shell" none none false none none none none none
      = .error (.exc ("Step type: " ++ "Shell" ++ " not handled"))) := by
  refine ⟨?_, ?_, ?_⟩
  · exact (fatal_configuration_checks "a.aedt" "s.vbs" "slurm" "Shell" "n" "N"
      none false none (some "d") none none none none none "").1 (by decide)
  · exact (fatal_configuration_checks "a.aedt" "s.vbs" "slurm" "Shell" "n" "N"
      none false none none none none none none none "").2.1 (by decide) (by decide)
  · exact (fatal_configuration_checks "a.aedt" "s.vbs" "slurm" "Shell" "n" "N"
      none false none none none none none none none "").2.2.1
      (by decide) (by decide) (by decide)

/-! ## Claim C7: local script dispatch -/

/-- C7: dispatching a script step through the local backend performs
exactly one synchronous invocation of the external application, writes
no batch/submission file, and returns the fixed sentinel identifier
"0" -- for every payload and resource request. -/
theorem execute_script_local_one_call (script_name aedt addr : String)
    (resources : Option SimulationResources)
    (bash log sub : Option String) (schedOut : String) :
    execute_script script_name aedt "local" (some addr) resources bash log sub schedOut
      = ([ExecEvent.callProcess
            ("cmd /c" ++ " " ++ addr ++ " "
              ++ "-features=beta -ng -runscriptandexit" ++ " "
              ++ script_name ++ " " ++ aedt)], .ok "0")
    ∧ ((execute_script script_name aedt "local" (some addr) resources bash log sub
          schedOut).1.countP ExecEvent.isCall) = 1
    ∧ ((execute_script script_name aedt "local" (some addr) resources bash log sub
          schedOut).1.all (fun e => !e.isWrite)) = true :=
  ⟨rfl, rfl, rfl⟩

/-! ## The Task state machine (task_class.Task) -/

namespace AAA

/-- The two execution options handled by Task ('local' / 'euler'). -/
inductive ExecOption where
  | Local
  | Euler
  deriving DecidableEq, Repr

def ExecOption.toStr : ExecOption → String
  | .Local => "local"
  | .Euler => "euler"

/-- Stem of `os.path.splitext`: everything before the last dot, except
that a basename consisting only of leading dots up to that dot keeps
the dot (e.g. ".bashrc" has no extension).  File names here carry no
directory separators (see the modelling conventions). -/
def splitextStem (p : String) : String :=
  let cs := p.toList
  match cs.reverse.findIdx? (fun c => c = '.') with
  | none => p
  | some j =>
    let i := cs.length - 1 - j
    if (cs.take i).all (fun c => c = '.') then p else String.mk (cs.take i)

/-- task_class.Task: constructor fields plus the mutable cursor/flag;
the status sink is returned as a trace instead of being carried. -/
structure Task where
  projectName : String
  execOption : ExecOption
  subFolder : Option String := none
  ansysExecAddress : Option String := none
  displayWarning : Bool := false
  steps : List Step := []
  stepIterator : Nat := 0
  done : Bool := false
  deriving DecidableEq, Repr

/-- Task.next_step. -/
def nextStep (t : Task) : Task :=
  if t.stepIterator + 1 = t.steps.length then { t with done := true }
  else { t with stepIterator := t.stepIterator + 1 }

/-- In-place mutation of the current step object. -/
def setCurrent (t : Task) (s : Step) : Task :=
  { t with steps := t.steps.set t.stepIterator s }

/-- Oracle inputs of one `execute_step` call: the stdout the scheduler
would produce for a submission performed during this call, and whether
the in-process Python callback raises. -/
structure PollEnv where
  schedOut : String
  pyRaises : Bool
  deriving DecidableEq, Repr

/-- Result of one `execute_step` call: the new task, the new working
directory, the status-sink lines written, and the exception escaping
the call if any (the task/fs are the state at the moment of the
raise). -/
structure StepOutcome where
  task : Task
  fs : Fs
  status : List String := []
  err : Option PyError := none
  deriving DecidableEq, Repr

/-- Replay the dispatcher's file writes onto the working directory;
process invocations do not change it. -/
def applyEvent (fs : Fs) : ExecEvent → Fs
  | .writeFile n c => os_write fs n c
  | _ => fs

def applyEvents (fs : Fs) (es : List ExecEvent) : Fs :=
  es.foldl applyEvent fs

/-- The Python-step branch of `execute_step`: the closure runs
synchronously, a bare `except` absorbs any exception and logs it, the
cursor advances, and the step's own `done` flag is never touched. -/
def pythonStepRun (t : Task) (cur : Step) (env : PollEnv) (fs : Fs) : StepOutcome :=
  let st0 := ["Executing python step: " ++ cur.name]
  { task := nextStep t
    fs := fs
    status := if env.pyRaises then st0 ++ ["Error for optimization plotting"] else st0
    err := none }

/-- Printing of a possibly-`None` job id in a status line. -/
def optStr : Option String → String
  | some s => s
  | none => "None"

/-- The not-yet-in-progress branch of `execute_step`: remove a stale
log file, dispatch, mark the step in progress and (euler) record the
returned job id. -/
def dispatchStep (t : Task) (cur : Step) (fs : Fs) (logName : String)
    (dres : List ExecEvent × Except PyError (Option String)) : StepOutcome :=
  let pre :=
    if os_path_exists fs logName
    then (os_remove fs logName, ["Pre existing log file removed"])
    else (fs, ([] : List String))
  let st := pre.2 ++ ["Executing " ++ splitextStem logName]
  let fs2 := applyEvents pre.1 dres.1
  match dres.2 with
  | .error e => { task := t, fs := fs2, status := st, err := some e }
  | .ok jid =>
    match t.execOption with
    | .Euler =>
      { task := setCurrent t { cur with inProgress := true, jobId := jid }
        fs := fs2
        status := st ++ ["Job ID: " ++ optStr jid ++ " associated to the step: " ++ cur.name]
        err := none }
    | .Local =>
      { task := setCurrent t { cur with inProgress := true }
        fs := fs2
        status := st
        err := none }

/-- The local completion branch: report scan, preventive cleaning, and
the step is marked done. -/
def completeLocal (t : Task) (cur : Step) (fs : Fs) (logName : String) : StepOutcome :=
  match detect_errors_from_log_file fs logName t.displayWarning with
  | .error e =>
    { task := t, fs := fs, status := ["No error lock syndrome detected"], err := some e }
  | .ok detSt =>
    let cleaned := clean_project_files t.projectName false false fs
    { task := setCurrent t { cur with done := true }
      fs := cleaned.1
      status := ["No error lock syndrome detected"] ++ detSt
        ++ ["Preventive cleaning"] ++ cleaned.2
      err := none }

/-- The euler completion branch: the step is marked done only when the
scheduler report file `lsf.o<jobId>` also exists, in which case it is
renamed (to the `lfs_`-prefixed name of the source) and the project is
cleaned; otherwise nothing at all happens.  Building the report name
from a `None` job id raises `TypeError`. -/
def pollEuler (t : Task) (cur : Step) (fs : Fs) (logName : String) : StepOutcome :=
  match cur.jobId with
  | none => { task := t, fs := fs, status := [], err := some .typeError }
  | some jid =>
    let report := "lsf.o" ++ jid
    if os_path_exists fs report then
      match detect_errors_from_log_file fs logName t.displayWarning with
      | .error e =>
        { task := t, fs := fs, status := ["No error lock syndrome detected"], err := some e }
      | .ok detSt =>
        let fs1 := os_rename fs report ("lfs_" ++ splitextStem logName ++ ".txt")
        let cleaned := clean_project_files t.projectName false false fs1
        { task := setCurrent t { cur with done := true }
          fs := cleaned.1
          status := ["No error lock syndrome detected"] ++ detSt
            ++ [" lsf.o file renamed to lsf_" ++ splitextStem logName]
            ++ ["Preventive cleaning"] ++ cleaned.2
            ++ ["script execution completed", "<elapsed time>"]
          err := none }
    else { task := t, fs := fs, status := [], err := none }

/-- The in-progress branch of `execute_step`: probe the log file; on a
lock-error syndrome clean the project, delete the log and clear the
in-progress flag; otherwise complete according to the backend; when
the log file has not appeared nothing happens. -/
def pollStep (t : Task) (cur : Step) (fs : Fs) (logName : String) : StepOutcome :=
  if os_path_exists fs logName then
    match find_lock_error_syndrome fs logName with
    | .error e => { task := t, fs := fs, status := [], err := some e }
    | .ok lock =>
      if !lock then
        match t.execOption with
        | .Local => completeLocal t cur fs logName
        | .Euler => pollEuler t cur fs logName
      else
        let cleaned := clean_project_files t.projectName false false fs
        { task := setCurrent t { cur with inProgress := false }
          fs := os_remove cleaned.1 logName
          status := ["Error lock syndrome detected",
                     "Check and remove potential completion and lock files"] ++ cleaned.2
          err := none }
  else { task := t, fs := fs, status := [], err := none }

/-- Dispatch payload of a Script step through Execute_Script.execute_script
(job id unified to an `Option`: `execute_script` always returns a string). -/
def scriptDispatch (t : Task) (cur : Step) (sc : String) (env : PollEnv) :
    List ExecEvent × Except PyError (Option String) :=
  let r := execute_script sc (t.projectName ++ ".aedt") t.execOption.toStr
    t.ansysExecAddress cur.resourcesRequested cur.bashFileName none t.subFolder
    env.schedOut
  (r.1, r.2.map (fun jid => some jid))

/-- Dispatch payload of an Analysis step through Run_Job.run_job. -/
def analysisDispatch (t : Task) (cur : Step) (logName : String) (env : PollEnv) :
    List ExecEvent × Except PyError (Option String) :=
  run_job cur.setupToAnalyse (t.projectName ++ ".aedt") t.execOption.toStr
    cur.designName t.ansysExecAddress (some logName) cur.resourcesRequested
    cur.bashFileName t.subFolder env.schedOut

/-- Common dispatch-or-poll flow once the log file name is known. -/
def stepMainFlow (t : Task) (cur : Step) (fs : Fs) (logName : String)
    (dres : List ExecEvent × Except PyError (Option String)) : StepOutcome :=
  if cur.inProgress = false then dispatchStep t cur fs logName dres
  else pollStep t cur fs logName

/-- The expected log file name of a non-Python step: for a Script step
it is derived from the script name, for an Analysis step the user
supplies it; `none` models the `TypeError` raised when the needed
field is Python's `None`. -/
def stepLogFileName (s : Step) : Option String :=
  match s.stepType with
  | .Script => s.scriptName.map (fun sc => splitextStem sc ++ ".log")
  | .Analysis => s.logFileName
  | .Python => none

/-- task_class.Task.execute_step, as a pure transition on the task,
the working directory and the status trace.  Indexing past the end of
the step list raises `IndexError`; a step whose required payload field
is `None` raises `TypeError` while the log file name is formed. -/
def executeStep (t : Task) (fs : Fs) (env : PollEnv) : StepOutcome :=
  match t.steps.get? t.stepIterator with
  | none => { task := t, fs := fs, status := [], err := some .indexError }
  | some cur =>
    if cur.done then { task := nextStep t, fs := fs, status := [], err := none }
    else
      match cur.stepType with
      | .Python => pythonStepRun t cur env fs
      | .Script =>
        match cur.scriptName with
        | none => { task := t, fs := fs, status := [], err := some .typeError }
        | some sc =>
          stepMainFlow t cur fs (splitextStem sc ++ ".log") (scriptDispatch t cur sc env)
      | .Analysis =>
        match cur.logFileName with
        | none => { task := t, fs := fs, status := [], err := some .typeError }
        | some ln =>
          stepMainFlow t cur fs ln (analysisDispatch t cur ln env)

/-- A sequence of polling-driver calls on one task. -/
def runPolls : Task → Fs → List PollEnv → Task × Fs
  | t, fs, [] => (t, fs)
  | t, fs, e :: es => runPolls (executeStep t fs e).task (executeStep t fs e).fs es


/-! ## Frame lemmas about one execute_step call -/

theorem setCurrent_stepIterator (t : Task) (s : Step) :
    (setCurrent t s).stepIterator = t.stepIterator := rfl

theorem setCurrent_done (t : Task) (s : Step) :
    (setCurrent t s).done = t.done := rfl

theorem setCurrent_get (t : Task) (s cur : Step)
    (hget : t.steps.get? t.stepIterator = some cur) :
    (setCurrent t s).steps.get? t.stepIterator = some s := by
  show (t.steps.set t.stepIterator s).get? t.stepIterator = some s
  rw [List.get?_set_eq, hget]
  rfl

theorem nextStep_stepIterator_le (t : Task) :
    t.stepIterator ≤ (nextStep t).stepIterator := by
  unfold nextStep
  split
  · exact Nat.le_refl _
  · exact Nat.le_succ _

theorem nextStep_steps (t : Task) : (nextStep t).steps = t.steps := by
  unfold nextStep
  split <;> rfl

theorem dispatchStep_frame (t : Task) (cur : Step) (fs : Fs) (logName : String)
    (dres : List ExecEvent × Except PyError (Option String)) :
    (dispatchStep t cur fs logName dres).task.stepIterator = t.stepIterator
    ∧ (dispatchStep t cur fs logName dres).task.done = t.done := by
  unfold dispatchStep
  rcases dres with ⟨evs, r⟩
  cases r with
  | error e => exact ⟨rfl, rfl⟩
  | ok jid => cases ht : t.execOption <;> simp [ht, setCurrent]

theorem completeLocal_frame (t : Task) (cur : Step) (fs : Fs) (logName : String) :
    (completeLocal t cur fs logName).task.stepIterator = t.stepIterator
    ∧ (completeLocal t cur fs logName).task.done = t.done := by
  unfold completeLocal
  cases detect_errors_from_log_file fs logName t.displayWarning with
  | error e => exact ⟨rfl, rfl⟩
  | ok detSt => exact ⟨rfl, rfl⟩

theorem pollEuler_frame (t : Task) (cur : Step) (fs : Fs) (logName : String) :
    (pollEuler t cur fs logName).task.stepIterator = t.stepIterator
    ∧ (pollEuler t cur fs logName).task.done = t.done := by
  unfold pollEuler
  cases cur.jobId with
  | none => exact ⟨rfl, rfl⟩
  | some jid =>
    by_cases h : os_path_exists fs ("lsf.o" ++ jid) = true
    · simp only [h, if_true]
      cases detect_errors_from_log_file fs logName t.displayWarning with
      | error e => exact ⟨rfl, rfl⟩
      | ok detSt => exact ⟨rfl, rfl⟩
    · simp only [h, if_false]
      exact ⟨rfl, rfl⟩

theorem pollStep_frame (t : Task) (cur : Step) (fs : Fs) (logName : String) :
    (pollStep t cur fs logName).task.stepIterator = t.stepIterator
    ∧ (pollStep t cur fs logName).task.done = t.done := by
  unfold pollStep
  by_cases h : os_path_exists fs logName = true
  · simp only [h, if_true]
    cases find_lock_error_syndrome fs logName with
    | error e => exact ⟨rfl, rfl⟩
    | ok lock =>
      cases lock with
      | true => exact ⟨rfl, rfl⟩
      | false =>
        cases ht : t.execOption with
        | Local => simpa [ht] using completeLocal_frame t cur fs logName
        | Euler => simpa [ht] using pollEuler_frame t cur fs logName
  · simp only [h, if_false]
    exact ⟨rfl, rfl⟩

theorem stepMainFlow_frame (t : Task) (cur : Step) (fs : Fs) (logName : String)
    (dres : List ExecEvent × Except PyError (Option String)) :
    (stepMainFlow t cur fs logName dres).task.stepIterator = t.stepIterator
    ∧ (stepMainFlow t cur fs logName dres).task.done = t.done := by
  unfold stepMainFlow
  by_cases h : cur.inProgress = false
  · simp only [h, if_true]
    exact dispatchStep_frame t cur fs logName dres
  · simp only [h, if_false]
    exact pollStep_frame t cur fs logName

theorem executeStep_stepIterator_le (t : Task) (fs : Fs) (env : PollEnv) :
    t.stepIterator ≤ (executeStep t fs env).task.stepIterator := by
  unfold executeStep
  cases hget : t.steps.get? t.stepIterator with
  | none => exact Nat.le_refl _
  | some cur =>
    by_cases hd : cur.done = true
    · simp only [hd, if_true]
      exact nextStep_stepIterator_le t
    · simp only [hd, if_false]
      cases cur.stepType with
      | Python => exact nextStep_stepIterator_le t
      | Script =>
        cases cur.scriptName with
        | none => exact Nat.le_refl _
        | some sc =>
          exact Nat.le_of_eq (stepMainFlow_frame t cur fs _ _).1.symm
      | Analysis =>
        cases cur.logFileName with
        | none => exact Nat.le_refl _
        | some ln =>
          exact Nat.le_of_eq (stepMainFlow_frame t cur fs _ _).1.symm


/-! ## Concrete tasks used as witnesses and counterexamples -/

def pyStep : Step := { name := "plot", displayName := "Plot", stepType := .Python }

def anStep : Step :=
  { name := "run", displayName := "Run", stepType := .Analysis,
    logFileName := some "run.log" }

def pyTask : Task :=
  { projectName := "proj", execOption := .Local, steps := [pyStep] }

def py2Task : Task :=
  { projectName := "proj", execOption := .Local, steps := [pyStep, anStep] }

def env0 : PollEnv := { schedOut := "", pyRaises := false }

def envRaise : PollEnv := { schedOut := "", pyRaises := true }

def lockStep : Step :=
  { name := "sim", displayName := "Sim", stepType := .Analysis,
    logFileName := some "run.log", inProgress := true, jobId := some "42" }

def lockTask : Task :=
  { projectName := "proj", execOption := .Euler, steps := [lockStep] }

def lockFs : Fs :=
  [("run.log",
    "Project proj.aedt may be opened in another instance of the application.\n")]

def c3Step : Step :=
  { name := "sim", displayName := "Sim", stepType := .Analysis,
    logFileName := some "run.log", inProgress := true, jobId := some "7" }

def c3Task : Task :=
  { projectName := "proj", execOption := .Euler, steps := [c3Step] }

def c3Fs : Fs := [("run.log", "Solving setup...\nNormal completion.\n")]

/-! ## Claim C6: the cursor never decreases -/

/-- C6: across any sequence of execute_step calls on a task, the
cursor `step_iterator` is monotonically non-decreasing: the only
mutation is the `+ 1` in `next_step`. -/
theorem cursor_monotone (t : Task) (fs : Fs) (envs : List PollEnv) :
    t.stepIterator ≤ (runPolls t fs envs).1.stepIterator := by
  induction envs generalizing t fs with
  | nil => exact Nat.le_refl _
  | cons e es ih =>
    exact Nat.le_trans (executeStep_stepIterator_le t fs e) (ih _ _)

/-! ## Claim C1: when the task's done flag becomes true -/

/-- C1 counterexample: a task whose single (hence last) step is a
Python step becomes `done` after one call although that step's own
`done` flag is still false -- Python steps are never marked done. -/
theorem done_true_with_last_step_not_done :
    (executeStep pyTask [] env0).task.done = true
    ∧ (executeStep pyTask [] env0).task.steps.all (fun s => !s.done) = true :=
  ⟨rfl, rfl⟩

/-- C1 (amended): starting from a not-yet-done task, one execute_step
call sets the task's `done` flag exactly when the cursor is at the
last step and that step either is already marked Done or is a Python
step (which is executed but never marked Done); the cursor itself
never moves past the last index. -/
theorem executeStep_done_characterization (t : Task) (fs : Fs) (env : PollEnv)
    (cur : Step) (hget : t.steps.get? t.stepIterator = some cur)
    (hdone : t.done = false) :
    ((executeStep t fs env).task.done = true
      ↔ (t.stepIterator + 1 = t.steps.length
          ∧ (cur.done = true ∨ cur.stepType = StepType.Python))) := by
  unfold executeStep
  rw [hget]
  by_cases hd : cur.done = true
  · simp only [hd, if_true]
    unfold nextStep
    by_cases hl : t.stepIterator + 1 = t.steps.length <;> simp [hl, hdone]
  · simp only [hd, if_false]
    cases hst : cur.stepType with
    | Python =>
      unfold pythonStepRun nextStep
      by_cases hl : t.stepIterator + 1 = t.steps.length <;> simp [hl, hdone]
    | Script =>
      cases hsc : cur.scriptName with
      | none => simp [hdone, hd, hst]
      | some sc => simp [(stepMainFlow_frame t cur fs _ _).2, hdone, hd, hst]
    | Analysis =>
      cases hln : cur.logFileName with
      | none => simp [hdone, hd, hst]
      | some ln => simp [(stepMainFlow_frame t cur fs _ _).2, hdone, hd, hst]

/-- C1 witness: the characterization applied to the one-Python-step
task. -/
theorem executeStep_done_characterization_witness :
    ((executeStep pyTask [] env0).task.done = true
      ↔ (pyTask.stepIterator + 1 = pyTask.steps.length
          ∧ (pyStep.done = true ∨ pyStep.stepType = StepType.Python))) :=
  executeStep_done_characterization pyTask [] env0 pyStep rfl rfl

/-! ## Claim C5: Python (Compute) steps -/

/-- C5 counterexample: a Python step over which the closure raises is
left behind (`step_iterator` advances) with its `done` flag still
false: the step is never marked Done, contrary to the claim. -/
theorem python_step_not_marked_done :
    (executeStep py2Task [] envRaise).err = none
    ∧ (executeStep py2Task [] envRaise).task.stepIterator = 1
    ∧ (executeStep py2Task [] envRaise).task.steps.get? 0 = some pyStep
    ∧ pyStep.done = false :=
  ⟨rfl, rfl, rfl, rfl⟩

/-- C5 (amended): on first visit of a Python step the closure is
invoked synchronously; an exception raised by it is absorbed by the
bare `except` and logged as a non-fatal status line, and the task
advances past the step in every case -- but the step itself is never
marked Done (its flags are left untouched, the step list being
unchanged). -/
theorem python_step_advances_without_done (t : Task) (fs : Fs) (env : PollEnv)
    (cur : Step) (hget : t.steps.get? t.stepIterator = some cur)
    (hdone : cur.done = false) (hpy : cur.stepType = StepType.Python) :
    (executeStep t fs env
      = { task := nextStep t, fs := fs
          status :=
            if env.pyRaises then
              ["Executing python step: " ++ cur.name, "Error for optimization plotting"]
            else ["Executing python step: " ++ cur.name]
          err := none })
    ∧ (nextStep t).steps = t.steps := by
  refine ⟨?_, nextStep_steps t⟩
  unfold executeStep
  rw [hget]
  simp only [hdone, if_false]
  rw [hpy]
  unfold pythonStepRun
  cases env.pyRaises <;> rfl

/-- C5 witness: the amended statement at a concrete two-step task with
a raising closure. -/
theorem python_step_advances_without_done_witness :
    (executeStep py2Task [] envRaise
      = { task := nextStep py2Task, fs := []
          status :=
            if envRaise.pyRaises then
              ["Executing python step: " ++ pyStep.name, "Error for optimization plotting"]
            else ["Executing python step: " ++ pyStep.name]
          err := none })
    ∧ (nextStep py2Task).steps = py2Task.steps :=
  python_step_advances_without_done py2Task [] envRaise pyStep rfl rfl rfl


/-! ## Reduction of execute_step to the polling branch -/

/-- A dispatched (in-progress) non-Python step is handled by the
polling branch. -/
theorem executeStep_poll (t : Task) (fs : Fs) (env : PollEnv) (cur : Step)
    (logName : String)
    (hget : t.steps.get? t.stepIterator = some cur)
    (hdone : cur.done = false)
    (hlog : stepLogFileName cur = some logName)
    (hip : cur.inProgress = true) :
    executeStep t fs env = pollStep t cur fs logName := by
  unfold executeStep
  rw [hget]
  simp only [hdone, Bool.false_eq_true, if_false]
  cases hst : cur.stepType with
  | Python =>
    simp only [stepLogFileName, hst] at hlog
    exact absurd hlog (by simp)
  | Script =>
    simp only [stepLogFileName, hst] at hlog
    rcases Option.map_eq_some'.mp hlog with ⟨sc, hsc, hname⟩
    simp only [hst, hsc]
    unfold stepMainFlow
    simp only [hip, Bool.true_eq_false, if_false]
    rw [hname]
  | Analysis =>
    simp only [stepLogFileName, hst] at hlog
    simp only [hst, hlog]
    unfold stepMainFlow
    simp only [hip, Bool.true_eq_false, if_false]

/-! ## Claim C2: the lock-error recovery path -/

/-- C2 counterexample: after the lock-error reset the step still holds
its old scheduler job id (here "42"): the id is not discarded by the
reset itself, only overwritten by the next dispatch. -/
theorem lock_error_keeps_job_id :
    (executeStep lockTask lockFs env0).task.steps.get? 0
      = some { lockStep with inProgress := false }
    ∧ ({ lockStep with inProgress := false } : Step).jobId = some "42" :=
  ⟨rfl, rfl⟩

/-- C2 (amended): on a dispatched step whose log file exists and shows
the lock-error syndrome, execute_step runs the stale-artifact cleanup,
removes the log file and clears the step's in-progress flag (so that
the following poll re-dispatches it); every other step field --
identity, log file name, and also the stale scheduler job id, which is
only replaced at the next dispatch -- is left unchanged, and no
exception escapes. -/
theorem lock_error_resets_step (t : Task) (fs : Fs) (env : PollEnv)
    (cur : Step) (logName : String)
    (hget : t.steps.get? t.stepIterator = some cur)
    (hdone : cur.done = false)
    (hlog : stepLogFileName cur = some logName)
    (hip : cur.inProgress = true)
    (hex : os_path_exists fs logName = true)
    (hlock : find_lock_error_syndrome fs logName = .ok true) :
    (executeStep t fs env).err = none
    ∧ (executeStep t fs env).task = setCurrent t { cur with inProgress := false }
    ∧ (executeStep t fs env).fs
        = os_remove (clean_project_files t.projectName false false fs).1 logName := by
  rw [executeStep_poll t fs env cur logName hget hdone hlog hip]
  unfold pollStep
  simp only [hex, if_true, hlock, Bool.not_true, Bool.false_eq_true, if_false]
  simp

/-- C2 witness: the reset on a concrete dispatched euler step whose
log contains the lock-error substring. -/
theorem lock_error_resets_step_witness :
    (executeStep lockTask lockFs env0).err = none
    ∧ (executeStep lockTask lockFs env0).task
        = setCurrent lockTask { lockStep with inProgress := false }
    ∧ (executeStep lockTask lockFs env0).fs
        = os_remove (clean_project_files lockTask.projectName false false lockFs).1
            "run.log" :=
  lock_error_resets_step lockTask lockFs env0 lockStep "run.log"
    rfl rfl rfl rfl (by decide) rfl

/-! ## Claim C3: the euler report file gates completion -/

/-- C3: for a dispatched step of a cluster ('euler') task, when the
log file exists without the lock-error syndrome but the scheduler
report file `lsf.o<jobId>` is absent, execute_step changes nothing at
all -- in particular the step stays not Done; and conversely the only
way the current step becomes Done is that the log existed without
lock error and the report file existed. -/
theorem euler_report_file_gates_done (t : Task) (fs : Fs) (env : PollEnv)
    (cur : Step) (logName jid : String)
    (hget : t.steps.get? t.stepIterator = some cur)
    (hdone : cur.done = false)
    (hlog : stepLogFileName cur = some logName)
    (hip : cur.inProgress = true)
    (heuler : t.execOption = ExecOption.Euler)
    (hjid : cur.jobId = some jid) :
    (os_path_exists fs logName = true →
      find_lock_error_syndrome fs logName = .ok false →
      os_path_exists fs ("lsf.o" ++ jid) = false →
      executeStep t fs env = { task := t, fs := fs, status := [], err := none })
    ∧ (∀ cur', (executeStep t fs env).task.steps.get? t.stepIterator = some cur' →
        cur'.done = true →
        os_path_exists fs logName = true
        ∧ find_lock_error_syndrome fs logName = .ok false
        ∧ os_path_exists fs ("lsf.o" ++ jid) = true) := by
  have hpoll := executeStep_poll t fs env cur logName hget hdone hlog hip
  constructor
  · intro hex hlk hrep
    rw [hpoll]
    unfold pollStep
    simp only [hex, if_true, hlk, Bool.not_false, heuler]
    unfold pollEuler
    simp only [hjid, hrep, Bool.false_eq_true, if_false, if_true]
  · intro cur' hget' hdone'
    rw [hpoll] at hget'
    have hcontr : t.steps.get? t.stepIterator = some cur' → False := by
      intro h1
      rw [hget] at h1
      injection h1 with h1
      rw [← h1, hdone] at hdone'
      exact absurd hdone' (by decide)
    have hcontr2 : ∀ s : Step, s.done = cur.done →
        (setCurrent t s).steps.get? t.stepIterator = some cur' → False := by
      intro s hs h1
      rw [setCurrent_get t s cur hget] at h1
      injection h1 with h1
      rw [← h1, hs, hdone] at hdone'
      exact absurd hdone' (by decide)
    unfold pollStep at hget'
    cases hex : os_path_exists fs logName with
    | false =>
      simp only [hex, Bool.false_eq_true, if_false] at hget'
      exact absurd hget' hcontr
    | true =>
      simp only [hex, if_true] at hget'
      cases hfl : find_lock_error_syndrome fs logName with
      | error e =>
        rw [hfl] at hget'
        exact absurd hget' hcontr
      | ok lock =>
        rw [hfl] at hget'
        cases lock with
        | true =>
          simp only [Bool.not_true, Bool.false_eq_true, if_false] at hget'
          exact absurd hget' (hcontr2 _ rfl)
        | false =>
          simp only [Bool.not_false, if_true, heuler] at hget'
          unfold pollEuler at hget'
          rw [hjid] at hget'
          cases hrep : os_path_exists fs ("lsf.o" ++ jid) with
          | false =>
            simp only [hrep, Bool.false_eq_true, if_false] at hget'
            exact absurd hget' hcontr
          | true =>
            refine ⟨rfl, rfl, rfl⟩


/-- C3 witness: a concrete dispatched euler step whose log is complete
and lock-free but whose `lsf.o7` report file is missing is left
entirely unchanged. -/
theorem euler_report_file_gates_done_witness :
    executeStep c3Task c3Fs env0
      = { task := c3Task, fs := c3Fs, status := [], err := none } :=
  (euler_report_file_gates_done c3Task c3Fs env0 c3Step "run.log" "7"
      rfl rfl rfl rfl rfl rfl).1
    (by decide) rfl (by decide)

end AAA

/-- C10 witness: a concrete line whose error marker is its last token,
directly followed by the newline. -/
theorem trailing_marker_not_reported_witness :
    report_line true ("solver step 3 " ++ "[error]\n") = false
    ∧ report_line true ("solver step 3 " ++ "[warning]\n") = false
    ∧ detectAux true (readlines ("solver step 3 " ++ "[error]\n")) = [] :=
  trailing_marker_not_reported true "solver step 3 " (by decide) (by decide)
